import Mathlib

/-
Shallow embedding of src/python/worker/server/data_interface.py
(classes DataInterface and MetadataProcessor).

Modelling conventions:
- Python byte strings and text strings are both modelled as Lean String;
  the decode step is the identity in the model.
- A Python dict is modelled as an association list with unique keys in
  insertion order; dict assignment d[k] = v replaces the binding in place
  when k is present and appends it otherwise.
- pyarrow and pandas objects are modelled structurally: a RecordBatch is
  its schema fields plus its schema-level metadata; a DataFrame is an
  integer index (with an optional index name) plus named columns of
  runtime values. Cell-level serialization is not modelled; the claims
  under study concern schemas, metadata, column names/order and state.
-/

/-- Modelled from the spec: the const module referenced as con.* is not under
src/. The spec fixes the envelope vocabulary (data-id, message-type,
connection-id, task-id, output-info, algorithm, config-file, process-type,
query-mode), the time column name, the anomaly-count tag and the
nanosecond-to-second scale. The exact byte values are opaque; distinct
string literals stand for the distinct keys. -/
def DATA_ID : String := "data-id"

def MSG_TYPE : String := "message-type"

def CONN_ID : String := "connection-id"

def TASK_ID : String := "task-id"

def OUTPUT_INFO : String := "output-info"

def ALGORITHM : String := "algorithm"

def CONFIG_FILE : String := "config-file"

def PROCESS_TYPE : String := "process-type"

def QUERY_MODE : String := "query-mode"

def DATA_TIME : String := "time"

def ANOMALY_NUM : String := "anomaly-num"

def SEC_TO_NS : Int := 1000000000

/-- Lookup in a Python dict (association list): the value bound to key k. -/
def dictLookup {β : Type} : List (String × β) → String → Option β
  | [], _ => none
  | p :: rest, k => if p.1 = k then some (p.2) else dictLookup rest k

/-- Python dict assignment d[k] = v: replace the binding in place when the
key is present, append it otherwise. -/
def dictUpdate {β : Type} : List (String × β) → String → β → List (String × β)
  | [], k, v => [(k, v)]
  | p :: rest, k, v => if p.1 = k then (k, v) :: rest else p :: dictUpdate rest k v

/-- Python d.update(e): assign every binding of e into d, in order. -/
def dictUpdateAll {β : Type} (d e : List (String × β)) : List (String × β) :=
  e.foldl (fun acc kv => dictUpdate acc kv.1 kv.2) d

/-- A runtime value as seen by type(x).__name__ in get_field_type.
Numeric payloads are carried where the code computes with them; float
payloads are not needed by any claim and are omitted. -/
inductive PyVal : Type
  | pyStr (s : String)
  | pyInt32 (n : Int)
  | pyInt64 (n : Int)
  | pyFloat32
  | pyFloat64
  | pyBool (b : Bool)
  | pyBoolNp (b : Bool)
  | pyOther (tyname : String)
deriving DecidableEq

/-- type(x).__name__ for the modelled runtime values. -/
def PyVal.type_name : PyVal → String
  | .pyStr _ => "str"
  | .pyInt32 _ => "int32"
  | .pyInt64 _ => "int64"
  | .pyFloat32 => "float32"
  | .pyFloat64 => "float64"
  | .pyBool _ => "bool"
  | .pyBoolNp _ => "bool_"
  | .pyOther tyname => tyname

/-- The closed set of pyarrow wire types used by the code. -/
inductive PaType : Type
  | utf8
  | int64
  | float64
  | boolType
deriving DecidableEq

/-- Python exceptions raised by the modelled code paths. -/
inductive PyErr : Type
  | keyError
  | indexError
  | valueError
  | typeError (keys : List String)
deriving DecidableEq

/-- Session state of DataInterface (DataInterface.__init__). -/
structure DIState : Type where
  g_tag_kv : List (String × String)
  extra_tag_kv : List (String × String)
  extra_field_kv : List (String × (PyVal × PaType))
  series_key : Option String
deriving DecidableEq

/-- A fresh DataInterface: every dict empty, series_key = None. -/
def DIState.init : DIState := ⟨[], [], [], none⟩

/-- DataInterface._get_series_key: joins the sorted key=value pairs of the
(byte-decoded) metadata with commas and stores the result; then the dead
guard: if the stored key is None it is replaced by the sentinel TEMP. -/
def get_series_key (st : DIState) (metadata : List (String × String)) : DIState :=
  let pairs := metadata.map (fun kv => String.intercalate ("=") [kv.1, kv.2])
  let sk := String.intercalate (",") (List.insertionSort (fun a b : String => a ≤ b) pairs)
  let st1 : DIState := { st with series_key := some (sk) }
  if st1.series_key = none then { st1 with series_key := some ("TEMP") } else st1

/-- A pandas DataFrame: an integer index (time values), the index name, and
named columns of runtime values, in column order. -/
structure PdFrame : Type where
  idx_name : Option String
  index : List Int
  cols : List (String × List PyVal)
deriving DecidableEq

/-- A pyarrow RecordBatch as observed by the claims: the schema fields (name
and wire type, in order; the batch columns are exactly these fields) and the
schema-level metadata. -/
structure Batch : Type where
  fields : List (String × PaType)
  metadata : List (String × String)
deriving DecidableEq

/-- The composite key handed to the external registry:
(task_id, tag tuple, field-name bytes). -/
def RegKey : Type := String × List (String × String) × String

/-- DataInterface._metadata_to_field_ids: tag is tuple(tags.items()), i.e.
the tag pairs in dict insertion order (the source does not sort them); each
column name is mapped through the registry at (task_id, tag, name). The
registry is an external service, modelled as a function. -/
def metadata_to_field_ids (task_id : String) (tags : List (String × String))
    (columns : List String) (meta : RegKey → String) : List String :=
  let tag := tags
  columns.map (fun col => meta (task_id, tag, col))

/-- Lexicographic strictly-less on character lists, as Python compares
strings (by code point). -/
def strLtb : List Char → List Char → Bool
  | [], [] => false
  | [], _ :: _ => true
  | _ :: _, [] => false
  | c :: cs, d :: ds => if c < d then true else if d < c then false else strLtb cs ds

/-- Modelled from the spec: the at-most ordering Python sorted uses on
(key, value) string tuples: lexicographic on the key, then on the value. -/
def pairLeb (a b : String × String) : Bool :=
  strLtb a.1.data b.1.data || (a.1 == b.1 && (strLtb a.2.data b.2.data || a.2 == b.2))

/-- Modelled from the spec: the spec says the composite key uses the sorted
tag tuple. This definition follows the spec wording (sorting the tag pairs
as Python sorted does on tuples) and exists only to be compared with
metadata_to_field_ids, which is translated from the source. -/
def metadata_to_field_ids_spec_sorted (task_id : String) (tags : List (String × String))
    (columns : List String) (meta : RegKey → String) : List String :=
  let tag := List.insertionSort (fun a b => pairLeb a b = true) tags
  columns.map (fun col => meta (task_id, tag, col))

/-- The time-column transform on ingest: df[time] // SEC_TO_NS followed by
to_datetime(unit=s). Python floor division on integers is flooring division.
The wire contract fixes the time column as int64; non-integer time values
are not modelled (float payloads are not carried) and map to an error. -/
def time_to_seconds : PyVal → Except PyErr Int
  | .pyInt64 n => .ok (Int.fdiv n SEC_TO_NS)
  | .pyInt32 n => .ok (Int.fdiv n SEC_TO_NS)
  | _ => .error (.valueError)

/-- DataInterface.arrow_to_pandas: to_pandas gives the batch columns; the
time column is rescaled to seconds and becomes the index (set_index removes
it from the columns, preserving the order of the rest); the remaining
columns are renamed to the identifiers the registry returns. -/
def arrow_to_pandas (batchCols : List (String × List PyVal))
    (tags : List (String × String)) (task_id : String)
    (meta : RegKey → String) : Except PyErr PdFrame :=
  match dictLookup batchCols DATA_TIME with
  | none => .error (.keyError)
  | some timeData =>
    match timeData.mapM time_to_seconds with
    | .error e => .error e
    | .ok index =>
      let rest := batchCols.filter (fun p => decide (p.1 ≠ DATA_TIME))
      let ids := metadata_to_field_ids task_id tags (rest.map Prod.fst) meta
      .ok ⟨some DATA_TIME, index, ids.zip (rest.map Prod.snd)⟩

/-- The type dict of DataInterface.get_field_type, looked up at
type(value).__name__. -/
def mapping (tyname : String) : Option PaType :=
  if tyname = "str" then some (PaType.utf8)
  else if tyname = "int64" then some (PaType.int64)
  else if tyname = "float64" then some (PaType.float64)
  else if tyname = "int32" then some (PaType.int64)
  else if tyname = "float32" then some (PaType.float64)
  else if tyname = "bool" then some (PaType.boolType)
  else if tyname = "bool_" then some (PaType.boolType)
  else none

/-- list(mapping.keys()), in dict-literal order; the payload of the
TypeError message. -/
def mapping_keys : List String :=
  ["str", "int64", "float64", "int32", "float32", "bool", "bool_"]

/-- The per-column loop of DataInterface.get_field_type: df[column] raises
KeyError when the column is absent, iloc[0] raises IndexError on an empty
column, an unmapped type name raises the TypeError carrying mapping_keys,
and otherwise type_kv[column] is assigned the mapped wire type. -/
def gft_loop (df : PdFrame) : List (String × PaType) → List String →
    Except PyErr (List (String × PaType))
  | type_kv, [] => .ok type_kv
  | type_kv, column :: rest =>
    match dictLookup df.cols column with
    | none => .error (.keyError)
    | some data =>
      match data.head? with
      | none => .error (.indexError)
      | some v =>
        match mapping (PyVal.type_name v) with
        | none => .error (.typeError mapping_keys)
        | some col_type => gft_loop df (dictUpdate type_kv column col_type) rest

/-- DataInterface.get_field_type: type_kv starts as the dict with the time
column preassigned int64, then the loop runs over the given columns. -/
def get_field_type (columns : List String) (df : PdFrame) :
    Except PyErr (List (String × PaType)) :=
  gft_loop df [(DATA_TIME, PaType.int64)] columns

/-- DataInterface.add_tag: self.extra_tag_kv.update({key: value}). -/
def add_tag (st : DIState) (key value : String) : DIState :=
  { st with extra_tag_kv := dictUpdate st.extra_tag_kv key value }

/-- DataInterface.add_field: self.extra_field_kv.update({key: (value, data_type)}). -/
def add_field (st : DIState) (key : String) (value : PyVal) (data_type : PaType) : DIState :=
  { st with extra_field_kv := dictUpdate st.extra_field_kv key (value, data_type) }

/-- A sequence of add_tag calls, applied in order. -/
def apply_add_tags (st : DIState) (calls : List (String × String)) : DIState :=
  calls.foldl (fun s kv => add_tag s kv.1 kv.2) st

/-- DataInterface._datetime2timestamp: the index values become raw int64
(they are already the integer timestamps in the model) and the index is
renamed to the time-column name. -/
def datetime2timestamp (df : PdFrame) : PdFrame :=
  { df with idx_name := some (DATA_TIME) }

/-- DataInterface.pandas_to_arrow: tag_kv is a copy of g_tag_kv updated with
extra_tag_kv. With no frame, the anomaly-count tag "0" is assigned into the
local copy and the schema has no fields. With a frame, the wire types come
from get_field_type (whose TypeError propagates) updated with the declared
types of the extra fields; the extra-field constant columns are injected
into the serialized frame only (cell data is not part of the Batch model),
and reset_index turns the time index back into an ordinary column. The pair
returned is (raised exception or batch, the DataInterface state after the
call); the source assigns to no instance attribute, so the state component
is the input state in every branch. -/
def pandas_to_arrow (st : DIState) (df : Option PdFrame) : Except PyErr Batch × DIState :=
  let tag_kv := dictUpdateAll st.g_tag_kv st.extra_tag_kv
  match df with
  | none =>
    let tag_kv2 := dictUpdate tag_kv ANOMALY_NUM ("0")
    (.ok ⟨[], tag_kv2⟩, st)
  | some f =>
    let sub_df := datetime2timestamp f
    match get_field_type (f.cols.map Prod.fst) sub_df with
    | .error e => (.error e, st)
    | .ok ftk =>
      let field_type_kv := dictUpdateAll ftk (st.extra_field_kv.map (fun kv => (kv.1, kv.2.2)))
      (.ok ⟨field_type_kv, tag_kv⟩, st)

/-- The wire type get_field_type computes for one column: the mapping dict
looked up at the type name of the first value of the column, when the
column and its first value exist. -/
def col_wire_type (df : PdFrame) (c : String) : Option PaType :=
  match dictLookup df.cols c with
  | none => none
  | some data =>
    match data.head? with
    | none => none
    | some v => mapping (PyVal.type_name v)

/-- MetadataProcessor.output_key. -/
def output_key : List String := [DATA_ID, MSG_TYPE, CONN_ID, TASK_ID]

/-- MetadataProcessor.not_output_key. -/
def not_output_key : List String :=
  [OUTPUT_INFO, ALGORITHM, CONFIG_FILE, PROCESS_TYPE, QUERY_MODE]

/-- MetadataProcessor.not_necessary_for_stream. -/
def not_necessary_for_stream : List String := [OUTPUT_INFO, QUERY_MODE, PROCESS_TYPE]

/-- MetadataProcessor.not_necessary_for_batch. -/
def not_necessary_for_batch : List String := [OUTPUT_INFO, QUERY_MODE]

/-- MetadataProcessor.special_keys = output_key + not_output_key. -/
def special_keys : List String := output_key ++ not_output_key

/-- MetadataProcessor instance state: the envelope _info and the two
partitions, both empty after __init__. -/
structure RouterState : Type where
  info : List (String × String)
  other_metadata : List (String × String)
  output_metadata : List (String × String)
deriving DecidableEq

/-- MetadataProcessor.__init__(info): both partitions start empty. -/
def RouterState.init (info : List (String × String)) : RouterState := ⟨info, [], []⟩

/-- The key set of an envelope. -/
def keysOf (l : List (String × String)) : Finset String := (l.map Prod.fst).toFinset

/-- MetadataProcessor.get_value: single-key lookup, decoded; None when absent
(decode is the identity in the model). -/
def get_value (st : RouterState) (key : String) : Option String :=
  dictLookup st.info key

/-- MetadataProcessor._valid: not_in_info = keys - info.keys(); raises the
KeyError listing exactly that set when it is nonempty. The Python error
message renders list(not_in_info), whose order is unspecified; the model
carries the set itself. -/
def valid_missing (st : RouterState) (keys : Finset String) : Option (Finset String) :=
  let not_in_info := keys \ keysOf st.info
  if 0 < not_in_info.card then some (not_in_info) else none

/-- One iteration of the loop in MetadataProcessor._filter: the other
partition takes keys outside special_keys (only when with_other_info), the
output partition takes keys in output_key. -/
def filter_step (with_other_info : Bool)
    (acc : List (String × String) × List (String × String))
    (kv : String × String) : List (String × String) × List (String × String) :=
  let acc1 := if with_other_info ∧ ¬ kv.1 ∈ special_keys
    then (dictUpdate acc.1 kv.1 kv.2, acc.2) else acc
  if kv.1 ∈ output_key then (acc1.1, dictUpdate acc1.2 kv.1 kv.2) else acc1

/-- MetadataProcessor._filter: the loop over _info.items(). -/
def filter_run (st : RouterState) (with_other_info : Bool) : RouterState :=
  let res := st.info.foldl (filter_step with_other_info)
    (st.other_metadata, st.output_metadata)
  { st with other_metadata := res.1, output_metadata := res.2 }

/-- MetadataProcessor._validate_and_filter: _valid first (raising leaves the
state untouched), then _filter. The first component is the raised KeyError
payload, if any; the second is the resulting instance state. -/
def validate_and_filter (st : RouterState) (necessary_keys : Finset String)
    (with_other_info : Bool) : Option (Finset String) × RouterState :=
  match valid_missing st necessary_keys with
  | some missing => (some missing, st)
  | none => (none, filter_run st with_other_info)

/-- MetadataProcessor.process: mode "batch" takes the batch exemptions and
extracts other metadata; any other mode takes the stream exemptions and
does not. -/
def process (st : RouterState) (mode : String) : Option (Finset String) × RouterState :=
  if mode = "batch" then
    validate_and_filter st (special_keys.toFinset \ not_necessary_for_batch.toFinset) true
  else
    validate_and_filter st (special_keys.toFinset \ not_necessary_for_stream.toFinset) false

/-- required(mode): the necessary-key set computed inside process. -/
def necessary_keys_of (mode : String) : Finset String :=
  if mode = "batch" then special_keys.toFinset \ not_necessary_for_batch.toFinset
  else special_keys.toFinset \ not_necessary_for_stream.toFinset

/-- C1: the derived series key is invariant under permutation of the metadata
entries; but for empty metadata the code leaves the series key equal to the
empty string, not the sentinel TEMP: the join of zero pairs is the empty
string, never None, so the None guard that would install TEMP is dead code.
This theorem proves the invariance half and evaluates the code at the
failing input (the empty metadata mapping). -/
theorem get_series_key_perm_and_empty :
    (∀ (st : DIState) (m m' : List (String × String)), m.Perm m' →
        (get_series_key st m).series_key = (get_series_key st m').series_key)
    ∧ (get_series_key DIState.init []).series_key = some ("")
    ∧ (get_series_key DIState.init []).series_key ≠ some ("TEMP") := by
  refine ⟨?_, by decide, by decide⟩
  intro st m m' h
  have hmap : (m.map (fun kv => String.intercalate ("=") [kv.1, kv.2])).Perm
      (m'.map (fun kv => String.intercalate ("=") [kv.1, kv.2])) :=
    h.map _
  have hsort :
      List.insertionSort (fun a b : String => a ≤ b)
          (m.map (fun kv => String.intercalate ("=") [kv.1, kv.2]))
        = List.insertionSort (fun a b : String => a ≤ b)
          (m'.map (fun kv => String.intercalate ("=") [kv.1, kv.2])) := by
    have hs1 : List.Sorted (fun a b : String => a ≤ b)
        (List.insertionSort (fun a b : String => a ≤ b)
          (m.map (fun kv => String.intercalate ("=") [kv.1, kv.2]))) :=
      List.sorted_insertionSort _ _
    have hs2 : List.Sorted (fun a b : String => a ≤ b)
        (List.insertionSort (fun a b : String => a ≤ b)
          (m'.map (fun kv => String.intercalate ("=") [kv.1, kv.2]))) :=
      List.sorted_insertionSort _ _
    exact List.eq_of_perm_of_sorted
      ((List.perm_insertionSort _ _).trans
        (hmap.trans (List.perm_insertionSort _ _).symm)) hs1 hs2
  simp only [get_series_key, hsort]

/-- Witness for C1: two concrete permutations of the same metadata yield the
same series key. -/
theorem get_series_key_perm_witness :
    (get_series_key DIState.init [("b", "2"), ("a", "1")]).series_key
      = (get_series_key DIState.init [("a", "1"), ("b", "2")]).series_key :=
  get_series_key_perm_and_empty.1 DIState.init _ _ (List.Perm.swap ("a", "1") ("b", "2") [])

/- Shared lemmas about the Python-dict model. -/

theorem dictLookup_update {β : Type} (d : List (String × β)) (k' k : String) (v : β) :
    dictLookup (dictUpdate d k' v) k = if k = k' then some v else dictLookup d k := by
  induction d with
  | nil =>
    by_cases h : k = k'
    · subst h; simp [dictUpdate, dictLookup]
    · simp [dictUpdate, dictLookup, h, Ne.symm h]
  | cons p rest ih =>
    by_cases hp : p.1 = k'
    · by_cases h : k = k'
      · subst h
        simp [dictUpdate, dictLookup, hp]
      · simp [dictUpdate, dictLookup, hp, h, Ne.symm h]
    · by_cases hpk : p.1 = k
      · have hkk : ¬ k = k' := by
          intro he
          exact hp (by rw [hpk, he])
        simp [dictUpdate, dictLookup, hp, hpk, hkk]
      · simp [dictUpdate, dictLookup, hp, hpk, ih]

theorem mem_keys_update {β : Type} (k : String) (v : β) (k1 : String) :
    ∀ (d : List (String × β)),
      k1 ∈ (dictUpdate d k v).map Prod.fst ↔ k1 ∈ d.map Prod.fst ∨ k1 = k := by
  intro d
  induction d with
  | nil => simp [dictUpdate]
  | cons p rest ih =>
    by_cases hp : p.1 = k
    · simp [dictUpdate, hp]
      tauto
    · simp [dictUpdate, hp, ih]
      tauto

theorem nodupKeys_update {β : Type} (k : String) (v : β) :
    ∀ (d : List (String × β)), (d.map Prod.fst).Nodup →
      ((dictUpdate d k v).map Prod.fst).Nodup := by
  intro d
  induction d with
  | nil =>
    intro _
    simp [dictUpdate]
  | cons p rest ih =>
    intro h
    rw [List.map_cons, List.nodup_cons] at h
    by_cases hp : p.1 = k
    · simp only [dictUpdate, hp, if_pos, List.map_cons, List.nodup_cons]
      exact ⟨hp ▸ h.1, h.2⟩
    · simp only [dictUpdate, hp, if_neg, List.map_cons, List.nodup_cons, not_false_iff]
      refine ⟨?_, ih h.2⟩
      rw [mem_keys_update]
      intro hc
      rcases hc with hc | hc
      · exact h.1 hc
      · exact hp hc

theorem nodupKeys_updateAll {β : Type} :
    ∀ (e d : List (String × β)), (d.map Prod.fst).Nodup →
      ((dictUpdateAll d e).map Prod.fst).Nodup := by
  intro e
  induction e with
  | nil =>
    intro d h
    simpa [dictUpdateAll] using h
  | cons p e ih =>
    intro d h
    have hstep : dictUpdateAll d (p :: e) = dictUpdateAll (dictUpdate d p.1 p.2) e := rfl
    rw [hstep]
    exact ih _ (nodupKeys_update p.1 p.2 d h)

theorem dictLookup_updateAll {β : Type} :
    ∀ (e d : List (String × β)) (k : String),
      dictLookup (dictUpdateAll d e) k = (dictLookup e.reverse k).or (dictLookup d k) := by
  intro e
  induction e using List.reverseRecOn with
  | nil =>
    intro d k
    simp [dictUpdateAll, dictLookup, Option.or]
  | append_singleton e p ih =>
    intro d k
    have hfold : dictUpdateAll d (e ++ [p]) = dictUpdate (dictUpdateAll d e) p.1 p.2 := by
      simp [dictUpdateAll, List.foldl_append]
    rw [hfold, dictLookup_update, List.reverse_append]
    by_cases h : k = p.1
    · subst h
      simp [dictLookup, Option.or]
    · simp [dictLookup, h, Ne.symm h, ih, Option.or]

theorem dictLookup_eq_none {β : Type} (k : String) :
    ∀ (d : List (String × β)), dictLookup d k = none ↔ k ∉ d.map Prod.fst := by
  intro d
  induction d with
  | nil => simp [dictLookup]
  | cons p rest ih =>
    by_cases hp : p.1 = k
    · simp [dictLookup, hp]
    · simp [dictLookup, hp, ih, Ne.symm hp]

theorem mem_of_dictLookup {β : Type} {k : String} {v : β} :
    ∀ {d : List (String × β)}, dictLookup d k = some v → (k, v) ∈ d := by
  intro d
  induction d with
  | nil => intro h; simp [dictLookup] at h
  | cons p rest ih =>
    intro h
    by_cases hp : p.1 = k
    · rw [dictLookup, if_pos hp] at h
      have hv : p.2 = v := by injection h
      have hpe : p = (k, v) := by
        cases p
        simp_all
      rw [List.mem_cons]
      exact Or.inl hpe.symm
    · rw [dictLookup, if_neg hp] at h
      exact List.mem_cons.mpr (Or.inr (ih h))

theorem dictLookup_of_mem {β : Type} {k : String} {v : β} :
    ∀ {d : List (String × β)}, (d.map Prod.fst).Nodup → (k, v) ∈ d →
      dictLookup d k = some v := by
  intro d
  induction d with
  | nil => intro _ hm; simp at hm
  | cons p rest ih =>
    intro hnd hm
    rw [List.map_cons, List.nodup_cons] at hnd
    rcases List.mem_cons.mp hm with he | hm2
    · rw [dictLookup, if_pos (by rw [← he])]
      rw [← he]
    · have hk : k ∈ rest.map Prod.fst :=
        List.mem_map.mpr ⟨(k, v), hm2, rfl⟩
      have hp : ¬ p.1 = k := by
        intro he2
        exact hnd.1 (he2 ▸ hk)
      rw [dictLookup, if_neg hp]
      exact ih hnd.2 hm2

theorem dictLookup_perm {β : Type} {l l2 : List (String × β)} (hp : l.Perm l2)
    (hnd : (l.map Prod.fst).Nodup) (k : String) :
    dictLookup l k = dictLookup l2 k := by
  have hnd2 : (l2.map Prod.fst).Nodup := ((hp.map Prod.fst).nodup_iff).mp hnd
  cases hl : dictLookup l k with
  | none =>
    have hk : k ∉ l.map Prod.fst := (dictLookup_eq_none k l).mp hl
    have hk2 : k ∉ l2.map Prod.fst := by
      intro hc
      exact hk ((hp.map Prod.fst).mem_iff.mpr hc)
    exact ((dictLookup_eq_none k l2).mpr hk2).symm
  | some v =>
    have hm : (k, v) ∈ l2 := hp.mem_iff.mp (mem_of_dictLookup hl)
    exact (dictLookup_of_mem hnd2 hm).symm

theorem dictLookup_reverse {β : Type} {l : List (String × β)}
    (hnd : (l.map Prod.fst).Nodup) (k : String) :
    dictLookup l.reverse k = dictLookup l k := by
  have hndr : (l.reverse.map Prod.fst).Nodup := by
    rw [List.map_reverse]
    exact List.nodup_reverse.mpr hnd
  exact dictLookup_perm (List.reverse_perm l) hndr k

/- Lemmas about MetadataProcessor. -/

theorem process_eq (st : RouterState) (mode : String) :
    process st mode
      = validate_and_filter st (necessary_keys_of mode) (decide (mode = "batch")) := by
  by_cases h : mode = "batch" <;> simp [process, necessary_keys_of, h]

theorem valid_missing_eq (st : RouterState) (keys : Finset String) :
    valid_missing st keys
      = if keys ⊆ keysOf st.info then none else some (keys \ keysOf st.info) := by
  unfold valid_missing
  by_cases h : keys ⊆ keysOf st.info
  · rw [if_pos h]
    have he : keys \ keysOf st.info = ∅ := Finset.sdiff_eq_empty_iff_subset.mpr h
    simp [he]
  · rw [if_neg h]
    obtain ⟨k, hk, hnk⟩ := Finset.not_subset.mp h
    have hne : (keys \ keysOf st.info).Nonempty :=
      ⟨k, Finset.mem_sdiff.mpr ⟨hk, hnk⟩⟩
    simp [Finset.card_pos.mpr hne]

theorem foldl_filter_step (w : Bool) :
    ∀ (info : List (String × String)) (o out : List (String × String)),
      info.foldl (filter_step w) (o, out)
        = (dictUpdateAll o (info.filter (fun kv => decide (w = true ∧ ¬ kv.1 ∈ special_keys))),
           dictUpdateAll out (info.filter (fun kv => decide (kv.1 ∈ output_key)))) := by
  intro info
  induction info with
  | nil => intro o out; rfl
  | cons kv rest ih =>
    intro o out
    rw [List.foldl_cons]
    have hstep : filter_step w (o, out) kv
        = ((if w = true ∧ ¬ kv.1 ∈ special_keys then dictUpdate o kv.1 kv.2 else o),
           (if kv.1 ∈ output_key then dictUpdate out kv.1 kv.2 else out)) := by
      unfold filter_step
      by_cases h1 : w = true ∧ ¬ kv.1 ∈ special_keys <;>
        by_cases h2 : kv.1 ∈ output_key <;>
          simp [h1, h2]
    rw [hstep, ih]
    by_cases h1 : w = true ∧ ¬ kv.1 ∈ special_keys <;>
      by_cases h2 : kv.1 ∈ output_key <;>
        simp [h1, h2, List.filter_cons, dictUpdateAll]

theorem filter_step_false_other :
    ∀ (info : List (String × String)) (o out : List (String × String)),
      (info.foldl (filter_step false) (o, out)).1 = o := by
  intro info o out
  rw [foldl_filter_step]
  have hf : info.filter (fun kv => decide (false = true ∧ ¬ kv.1 ∈ special_keys)) = [] := by
    apply List.filter_eq_nil_iff.mpr
    intro a _
    simp
  rw [hf]
  rfl

/-- C2: process(envelope, mode) raises the missing-metadata KeyError exactly
when some key of required(mode) = special_keys minus the mode exemptions is
absent from the envelope, and the raised error carries exactly the set of
missing required keys: the keys that are required and bound to no value in
the envelope. -/
theorem process_missing_iff (st : RouterState) (mode : String) :
    (process st mode).1
      = (if necessary_keys_of mode ⊆ keysOf st.info then none
         else some (necessary_keys_of mode \ keysOf st.info))
    ∧ ∀ k : String,
        k ∈ necessary_keys_of mode \ keysOf st.info
          ↔ (k ∈ necessary_keys_of mode ∧ ∀ v : String, ¬ (k, v) ∈ st.info) := by
  constructor
  · rw [process_eq, validate_and_filter, valid_missing_eq]
    by_cases h : necessary_keys_of mode ⊆ keysOf st.info
    · rw [if_pos h]
    · rw [if_neg h]
  · intro k
    rw [Finset.mem_sdiff]
    constructor
    · rintro ⟨h1, h2⟩
      refine ⟨h1, fun v hv => h2 ?_⟩
      rw [keysOf, List.mem_toFinset]
      exact List.mem_map.mpr ⟨(k, v), hv, rfl⟩
    · rintro ⟨h1, h2⟩
      refine ⟨h1, fun hc => ?_⟩
      rw [keysOf, List.mem_toFinset] at hc
      obtain ⟨p, hp, hpk⟩ := List.mem_map.mp hc
      have hpe : p = (k, p.2) := by
        cases p
        simp_all
      exact h2 p.2 (by rw [hpe] at hp; exact hp)

/-- C7: validation runs strictly before partitioning: when a required key is
absent, process raises the KeyError carrying the missing set and the
instance state is untouched, so for a fresh router both partitions are
still empty; in general any raising call leaves the state unchanged. -/
theorem process_error_no_partition (mode : String) (env : List (String × String))
    (h : ¬ necessary_keys_of mode ⊆ keysOf env) :
    (process (RouterState.init env) mode).1
        = some (necessary_keys_of mode \ keysOf env)
    ∧ (process (RouterState.init env) mode).2.other_metadata = []
    ∧ (process (RouterState.init env) mode).2.output_metadata = []
    ∧ ∀ st : RouterState, (process st mode).1.isSome → (process st mode).2 = st := by
  have hgen : ∀ st : RouterState, (process st mode).1.isSome → (process st mode).2 = st := by
    intro st hs
    rw [process_eq, validate_and_filter, valid_missing_eq] at hs ⊢
    by_cases hsub : necessary_keys_of mode ⊆ keysOf st.info
    · rw [if_pos hsub] at hs
      simp at hs
    · rw [if_neg hsub]
  have hkeys : keysOf (RouterState.init env).info = keysOf env := rfl
  have hfst : process (RouterState.init env) mode
      = (some (necessary_keys_of mode \ keysOf env), RouterState.init env) := by
    rw [process_eq, validate_and_filter, valid_missing_eq, hkeys, if_neg h]
  refine ⟨by simp [hfst], ?_, ?_, hgen⟩
  · rw [hfst]
    rfl
  · rw [hfst]
    rfl

/-- Witness for C7: with an empty envelope in batch mode, process raises and
the fresh partitions stay empty. -/
theorem process_error_no_partition_witness :
    (process (RouterState.init []) ("batch")).1
      = some (necessary_keys_of ("batch") \ keysOf []) :=
  (process_error_no_partition ("batch") [] (by decide)).1

/-- C9: any mode string other than exactly "batch" behaves as streaming:
process is literally the stream behavior, the required set is special_keys
minus the stream exemptions, and the other-metadata partition is never
written. -/
theorem process_nonbatch_is_stream (mode : String) (h : ¬ mode = "batch") :
    (∀ st : RouterState, process st mode = process st ("stream"))
    ∧ necessary_keys_of mode
        = special_keys.toFinset \ not_necessary_for_stream.toFinset
    ∧ ∀ st : RouterState, (process st mode).2.other_metadata = st.other_metadata := by
  refine ⟨?_, by simp [necessary_keys_of, h], ?_⟩
  · intro st
    simp [process, h]
  · intro st
    rw [process, if_neg h, validate_and_filter]
    cases hv : valid_missing st (special_keys.toFinset \ not_necessary_for_stream.toFinset) with
    | some m => rfl
    | none =>
      show (filter_run st false).other_metadata = st.other_metadata
      rw [filter_run]
      exact filter_step_false_other st.info st.other_metadata st.output_metadata

/-- Witness for C9: a mode string that is neither "batch" nor "stream". -/
theorem process_nonbatch_is_stream_witness :
    process (RouterState.init []) ("anything") = process (RouterState.init []) ("stream") :=
  (process_nonbatch_is_stream ("anything") (by decide)).1 (RouterState.init [])

theorem dictLookup_updateAll_nil {β : Type} (l : List (String × β)) (k : String) :
    dictLookup (dictUpdateAll ([] : List (String × β)) l) k = dictLookup l.reverse k := by
  rw [dictLookup_updateAll]
  cases dictLookup l.reverse k <;> rfl

/-- C8: partitioning on the success path: every envelope binding with a key
in output_key lands in output-metadata in both modes; in batch mode every
binding with a key outside special_keys lands in other-metadata; in any
non-batch mode other-metadata stays empty; and a special key never appears
in other-metadata. -/
theorem process_partition (env : List (String × String)) (mode : String)
    (hnd : (env.map Prod.fst).Nodup)
    (hsub : necessary_keys_of mode ⊆ keysOf env) :
    (∀ k v : String, (k, v) ∈ env → k ∈ output_key →
        dictLookup ((process (RouterState.init env) mode).2).output_metadata k = some v)
    ∧ (mode = "batch" → ∀ k v : String, (k, v) ∈ env → ¬ k ∈ special_keys →
        dictLookup ((process (RouterState.init env) mode).2).other_metadata k = some v)
    ∧ (¬ mode = "batch" → ((process (RouterState.init env) mode).2).other_metadata = [])
    ∧ (∀ k : String, k ∈ special_keys →
        dictLookup ((process (RouterState.init env) mode).2).other_metadata k = none) := by
  have hkeys : keysOf (RouterState.init env).info = keysOf env := rfl
  have hv : valid_missing (RouterState.init env) (necessary_keys_of mode) = none := by
    rw [valid_missing_eq, hkeys, if_pos hsub]
  have hsnd : (process (RouterState.init env) mode).2
      = filter_run (RouterState.init env) (decide (mode = "batch")) := by
    rw [process_eq, validate_and_filter, hv]
  have hres : filter_run (RouterState.init env) (decide (mode = "batch"))
      = ⟨env,
         dictUpdateAll []
           (env.filter (fun kv => decide (decide (mode = "batch") = true ∧ ¬ kv.1 ∈ special_keys))),
         dictUpdateAll []
           (env.filter (fun kv => decide (kv.1 ∈ output_key)))⟩ := by
    rw [filter_run]
    rw [show (RouterState.init env).info = env from rfl]
    rw [show (RouterState.init env).other_metadata = ([] : List (String × String)) from rfl]
    rw [show (RouterState.init env).output_metadata = ([] : List (String × String)) from rfl]
    rw [foldl_filter_step]
  refine ⟨?_, ?_, ?_, ?_⟩
  · intro k v hm hout
    rw [hsnd, hres]
    show dictLookup (dictUpdateAll [] (env.filter (fun kv => decide (kv.1 ∈ output_key)))) k
      = some v
    have hs : List.Sublist
        ((env.filter (fun kv => decide (kv.1 ∈ output_key))).map Prod.fst)
        (env.map Prod.fst) :=
      (List.filter_sublist env).map Prod.fst
    have hndf : ((env.filter (fun kv => decide (kv.1 ∈ output_key))).map Prod.fst).Nodup :=
      hnd.sublist hs
    rw [dictLookup_updateAll_nil, dictLookup_reverse hndf]
    exact dictLookup_of_mem hndf (List.mem_filter.mpr ⟨hm, by simp [hout]⟩)
  · intro hmode k v hm hnspec
    subst hmode
    rw [hsnd, hres]
    show dictLookup (dictUpdateAll []
        (env.filter (fun kv =>
          decide (decide (("batch" : String) = "batch") = true ∧ ¬ kv.1 ∈ special_keys)))) k
      = some v
    have hs : List.Sublist
        ((env.filter (fun kv =>
          decide (decide (("batch" : String) = "batch") = true ∧ ¬ kv.1 ∈ special_keys))).map Prod.fst)
        (env.map Prod.fst) :=
      (List.filter_sublist env).map Prod.fst
    have hndf : ((env.filter (fun kv =>
          decide (decide (("batch" : String) = "batch") = true ∧ ¬ kv.1 ∈ special_keys))).map
          Prod.fst).Nodup :=
      hnd.sublist hs
    rw [dictLookup_updateAll_nil, dictLookup_reverse hndf]
    exact dictLookup_of_mem hndf (List.mem_filter.mpr ⟨hm, by simp [hnspec]⟩)
  · intro hmode
    rw [hsnd, hres]
    show dictUpdateAll []
        (env.filter (fun kv =>
          decide (decide (mode = "batch") = true ∧ ¬ kv.1 ∈ special_keys))) = []
    have hfalse : decide (mode = "batch") = false := by simp [hmode]
    have hf : env.filter (fun kv =>
        decide (decide (mode = "batch") = true ∧ ¬ kv.1 ∈ special_keys)) = [] := by
      apply List.filter_eq_nil_iff.mpr
      intro a _
      simp [hfalse]
    rw [hf]
    rfl
  · intro k hspec
    rw [hsnd, hres]
    show dictLookup (dictUpdateAll []
        (env.filter (fun kv =>
          decide (decide (mode = "batch") = true ∧ ¬ kv.1 ∈ special_keys)))) k
      = none
    rw [dictLookup_updateAll_nil]
    apply (dictLookup_eq_none k _).mpr
    intro hc
    rw [List.map_reverse, List.mem_reverse] at hc
    obtain ⟨kv, hkv, hfst⟩ := List.mem_map.mp hc
    have hpred := (List.mem_filter.mp hkv).2
    simp at hpred
    exact hpred.2 (hfst ▸ hspec)

/-- Witness for C8: a batch-mode envelope holding every required key plus an
auxiliary key; the data-id binding is extracted into output-metadata. -/
theorem process_partition_witness :
    dictLookup ((process (RouterState.init
        [(DATA_ID, "1"), (MSG_TYPE, "2"), (CONN_ID, "3"), (TASK_ID, "4"),
         (ALGORITHM, "5"), (CONFIG_FILE, "6"), (PROCESS_TYPE, "8"), ("foo", "7")])
        ("batch")).2).output_metadata DATA_ID = some ("1") :=
  (process_partition
      [(DATA_ID, "1"), (MSG_TYPE, "2"), (CONN_ID, "3"), (TASK_ID, "4"),
       (ALGORITHM, "5"), (CONFIG_FILE, "6"), (PROCESS_TYPE, "8"), ("foo", "7")]
      ("batch") (by decide) (by decide)).1 DATA_ID ("1") (by decide) (by decide)

/- Lemmas about DataInterface emission. -/

theorem apply_add_tags_eq (calls : List (String × String)) :
    ∀ st : DIState,
      apply_add_tags st calls
        = { st with extra_tag_kv := dictUpdateAll st.extra_tag_kv calls } := by
  induction calls with
  | nil => intro st; rfl
  | cons kv rest ih =>
    intro st
    rw [show apply_add_tags st (kv :: rest)
        = apply_add_tags (add_tag st kv.1 kv.2) rest from rfl, ih]
    rfl

theorem pandas_to_arrow_metadata (st : DIState) (f : PdFrame) (b : Batch)
    (h : (pandas_to_arrow st (some f)).1 = .ok b) :
    b.metadata = dictUpdateAll st.g_tag_kv st.extra_tag_kv := by
  rw [pandas_to_arrow] at h
  rcases hg : get_field_type (f.cols.map Prod.fst) (datetime2timestamp f) with e | ftk
  · rw [hg] at h
    simp at h
  · rw [hg] at h
    simp at h
    rw [← h]

/-- C10: emission never modifies the session state: after any call to
pandas_to_arrow, with a frame or with None, the group-by tag dict, the
extra tag dict, the extra field dict and the series key all equal their
values before the call (the anomaly-count tag is assigned only into the
local copy of the tag union). -/
theorem pandas_to_arrow_state (st : DIState) (df : Option PdFrame) :
    ((pandas_to_arrow st df).2.g_tag_kv = st.g_tag_kv)
    ∧ ((pandas_to_arrow st df).2.extra_tag_kv = st.extra_tag_kv)
    ∧ ((pandas_to_arrow st df).2.extra_field_kv = st.extra_field_kv)
    ∧ ((pandas_to_arrow st df).2.series_key = st.series_key) := by
  have h2 : (pandas_to_arrow st df).2 = st := by
    cases df with
    | none => rfl
    | some f =>
      rw [pandas_to_arrow]
      rcases hg : get_field_type (f.cols.map Prod.fst) (datetime2timestamp f) with e | ftk <;>
        simp [hg]
  rw [h2]
  exact ⟨rfl, rfl, rfl, rfl⟩

/-- C6: emitting with no frame yields a batch with zero schema fields whose
metadata holds the anomaly-count tag "0" and, on every other key, exactly
the union of the group-by tags and the extra tags with the extra value
winning. -/
theorem pandas_to_arrow_none (st : DIState)
    (hnd : (st.extra_tag_kv.map Prod.fst).Nodup) :
    ∃ b : Batch, (pandas_to_arrow st none).1 = .ok b
      ∧ b.fields = []
      ∧ dictLookup b.metadata ANOMALY_NUM = some ("0")
      ∧ ∀ k : String, ¬ k = ANOMALY_NUM →
          dictLookup b.metadata k
            = (dictLookup st.extra_tag_kv k).or (dictLookup st.g_tag_kv k) := by
  refine ⟨⟨[], dictUpdate (dictUpdateAll st.g_tag_kv st.extra_tag_kv) ANOMALY_NUM ("0")⟩,
    rfl, rfl, ?_, ?_⟩
  · show dictLookup (dictUpdate (dictUpdateAll st.g_tag_kv st.extra_tag_kv) ANOMALY_NUM ("0"))
        ANOMALY_NUM = some ("0")
    rw [dictLookup_update]
    simp
  · intro k hk
    show dictLookup (dictUpdate (dictUpdateAll st.g_tag_kv st.extra_tag_kv) ANOMALY_NUM ("0")) k
        = (dictLookup st.extra_tag_kv k).or (dictLookup st.g_tag_kv k)
    rw [dictLookup_update, if_neg hk, dictLookup_updateAll, dictLookup_reverse hnd]

/-- Witness for C6: a concrete session with one group-by tag and one extra
tag. -/
theorem pandas_to_arrow_none_witness :
    ∃ b : Batch, (pandas_to_arrow ⟨[("a", "1")], [("b", "2")], [], none⟩ none).1 = .ok b
      ∧ b.fields = []
      ∧ dictLookup b.metadata ANOMALY_NUM = some ("0")
      ∧ ∀ k : String, ¬ k = ANOMALY_NUM →
          dictLookup b.metadata k
            = (dictLookup [("b", "2")] k).or (dictLookup [("a", "1")] k) :=
  pandas_to_arrow_none ⟨[("a", "1")], [("b", "2")], [], none⟩ (by decide)

/-- C4: the tag metadata on a batch emitted for a frame is exactly the union
of the group-by tags G and the extra tags E accumulated by add_tag calls,
with the E value winning on each key present in both; and for two add_tag
call sequences that are permutations of each other (distinct keys), the
emitted metadata agrees on every key, so registration order is irrelevant. -/
theorem pandas_to_arrow_tag_merge (g : List (String × String))
    (calls calls2 : List (String × String)) (df : PdFrame) (b b2 : Batch)
    (hnd : (calls.map Prod.fst).Nodup)
    (hperm : calls2.Perm calls)
    (hb : (pandas_to_arrow (apply_add_tags ⟨g, [], [], none⟩ calls) (some df)).1 = .ok b)
    (hb2 : (pandas_to_arrow (apply_add_tags ⟨g, [], [], none⟩ calls2) (some df)).1 = .ok b2) :
    (∀ k : String,
        dictLookup b.metadata k
          = (dictLookup (apply_add_tags ⟨g, [], [], none⟩ calls).extra_tag_kv k).or
              (dictLookup g k))
    ∧ ∀ k : String, dictLookup b2.metadata k = dictLookup b.metadata k := by
  have hmeta := pandas_to_arrow_metadata _ _ _ hb
  have hmeta2 := pandas_to_arrow_metadata _ _ _ hb2
  rw [apply_add_tags_eq] at hmeta hmeta2 ⊢
  have hnd2 : (calls2.map Prod.fst).Nodup :=
    ((hperm.map Prod.fst).nodup_iff).mpr hnd
  have hndE : ((dictUpdateAll ([] : List (String × String)) calls).map Prod.fst).Nodup :=
    nodupKeys_updateAll calls [] (by simp)
  have hndE2 : ((dictUpdateAll ([] : List (String × String)) calls2).map Prod.fst).Nodup :=
    nodupKeys_updateAll calls2 [] (by simp)
  constructor
  · intro k
    rw [hmeta]
    show dictLookup (dictUpdateAll g (dictUpdateAll [] calls)) k
        = (dictLookup (dictUpdateAll [] calls) k).or (dictLookup g k)
    rw [dictLookup_updateAll, dictLookup_reverse hndE]
  · intro k
    rw [hmeta, hmeta2]
    show dictLookup (dictUpdateAll g (dictUpdateAll [] calls2)) k
        = dictLookup (dictUpdateAll g (dictUpdateAll [] calls)) k
    rw [dictLookup_updateAll, dictLookup_updateAll,
        dictLookup_reverse hndE2, dictLookup_reverse hndE]
    have hrev : dictLookup (dictUpdateAll [] calls2) k
        = dictLookup (dictUpdateAll [] calls) k := by
      rw [dictLookup_updateAll_nil, dictLookup_updateAll_nil]
      have hndrev : (calls2.reverse.map Prod.fst).Nodup := by
        rw [List.map_reverse]
        exact List.nodup_reverse.mpr hnd2
      exact dictLookup_perm
        ((List.reverse_perm calls2).trans (hperm.trans (List.reverse_perm calls).symm)) hndrev k
    rw [hrev]

/- Lemmas about get_field_type. -/

theorem gft_loop_ok (df : PdFrame) :
    ∀ (columns : List String) (acc : List (String × PaType)),
      (∀ c ∈ columns, (col_wire_type df c).isSome) →
      ∃ r, gft_loop df acc columns = .ok r
        ∧ ∀ k : String, dictLookup r k
            = if k ∈ columns then col_wire_type df k else dictLookup acc k := by
  intro columns
  induction columns with
  | nil =>
    intro acc _
    exact ⟨acc, rfl, fun k => by simp⟩
  | cons c rest ih =>
    intro acc h1
    have hc := h1 c (List.mem_cons_self c rest)
    rcases hl : dictLookup df.cols c with _ | data
    · simp [col_wire_type, hl] at hc
    · rcases hh : data.head? with _ | v
      · simp [col_wire_type, hl, hh] at hc
      · rcases hm : mapping (PyVal.type_name v) with _ | t
        · simp [col_wire_type, hl, hh, hm] at hc
        · have hstep : gft_loop df acc (c :: rest)
              = gft_loop df (dictUpdate acc c t) rest := by
            simp only [gft_loop, hl, hh, hm]
          obtain ⟨r, hr, hlook⟩ :=
            ih (dictUpdate acc c t) (fun x hx => h1 x (List.mem_cons_of_mem c hx))
          refine ⟨r, by rw [hstep]; exact hr, ?_⟩
          intro k
          rw [hlook k, dictLookup_update]
          have hcw : col_wire_type df c = some t := by
            simp only [col_wire_type, hl, hh, hm]
          by_cases hkr : k ∈ rest
          · simp [hkr, List.mem_cons]
          · by_cases hkc : k = c
            · subst hkc
              simp [hkr, hcw]
            · simp [hkr, hkc, List.mem_cons]

theorem gft_loop_unsupported (df : PdFrame) :
    ∀ (columns : List String) (acc : List (String × PaType)),
      (∀ c ∈ columns, ∃ data v, dictLookup df.cols c = some data ∧ data.head? = some v) →
      (∃ c ∈ columns, col_wire_type df c = none) →
      gft_loop df acc columns = .error (.typeError mapping_keys) := by
  intro columns
  induction columns with
  | nil =>
    intro acc _ hex
    simp at hex
  | cons c rest ih =>
    intro acc hall hex
    obtain ⟨data, v, hl, hh⟩ := hall c (List.mem_cons_self c rest)
    rcases hm : mapping (PyVal.type_name v) with _ | t
    · simp only [gft_loop, hl, hh, hm]
    · have hstep : gft_loop df acc (c :: rest)
          = gft_loop df (dictUpdate acc c t) rest := by
        simp only [gft_loop, hl, hh, hm]
      rw [hstep]
      apply ih _ (fun x hx => hall x (List.mem_cons_of_mem c hx))
      obtain ⟨c0, hc0, hcw⟩ := hex
      rcases List.mem_cons.mp hc0 with he | hr
      · exfalso
        rw [he] at hcw
        rw [show col_wire_type df c = some t from by
          simp only [col_wire_type, hl, hh, hm]] at hcw
        exact Option.noConfusion hcw
      · exact ⟨c0, hr, hcw⟩

/-- C5 (amended): for every column whose first value has runtime type name in
the closed set, schema inference succeeds; int32 and float32 map to the
64-bit wire types; any column whose first value falls outside the set
raises the fatal TypeError carrying the mapping keys; and the time index
column is assigned the 64-bit integer wire type in the result provided no
processed column is itself named the time column (a column named time
overrides the preassigned int64 with its own inferred type, see the
counterexample). -/
theorem get_field_type_closure :
    (mapping ("int32") = some (PaType.int64))
    ∧ (mapping ("float32") = some (PaType.float64))
    ∧ ∀ (columns : List String) (df : PdFrame),
      ((∀ c ∈ columns, ∃ data v, dictLookup df.cols c = some data ∧ data.head? = some v
            ∧ (mapping (PyVal.type_name v)).isSome) →
        ∃ r, get_field_type columns df = .ok r
          ∧ (∀ c, c ∈ columns → ∀ data v, dictLookup df.cols c = some data →
              data.head? = some v → dictLookup r c = mapping (PyVal.type_name v))
          ∧ (¬ DATA_TIME ∈ columns → dictLookup r DATA_TIME = some (PaType.int64)))
      ∧ ((∀ c ∈ columns, ∃ data v, dictLookup df.cols c = some data ∧ data.head? = some v) →
          (∃ c ∈ columns, ∃ data v, dictLookup df.cols c = some data ∧ data.head? = some v
            ∧ mapping (PyVal.type_name v) = none) →
          get_field_type columns df = .error (.typeError mapping_keys)) := by
  refine ⟨by decide, by decide, ?_⟩
  intro columns df
  constructor
  · intro h1
    have h1cw : ∀ c ∈ columns, (col_wire_type df c).isSome := by
      intro c hc
      obtain ⟨data, v, hl, hh, hs⟩ := h1 c hc
      simp only [col_wire_type, hl, hh]
      exact hs
    obtain ⟨r, hr, hlook⟩ := gft_loop_ok df columns [(DATA_TIME, PaType.int64)] h1cw
    refine ⟨r, hr, ?_, ?_⟩
    · intro c hc data v hl hh
      rw [hlook c, if_pos hc]
      simp only [col_wire_type, hl, hh]
    · intro ht
      rw [hlook DATA_TIME, if_neg ht]
      simp [dictLookup]
  · intro hall hex
    apply gft_loop_unsupported df columns _ hall
    obtain ⟨c0, hc0, data, v, hl, hh, hm⟩ := hex
    refine ⟨c0, hc0, ?_⟩
    simp only [col_wire_type, hl, hh, hm]

/-- C5 counterexample: a column literally named like the time column
overrides the preassigned 64-bit integer wire type: with a numpy float32
first value, the result types the time column float64, refuting the claim
that the time column is always assigned int64 in the result. -/
theorem get_field_type_time_override :
    get_field_type [DATA_TIME] ⟨none, [], [(DATA_TIME, [PyVal.pyFloat32])]⟩
        = .ok [(DATA_TIME, PaType.float64)]
    ∧ ¬ (PaType.float64 = PaType.int64) :=
  ⟨rfl, by decide⟩

/-- Witness for C5: a supported int32 column infers successfully (to int64,
with the time column preassigned int64), and an unsupported frozenset
column raises the TypeError carrying the mapping keys. -/
theorem get_field_type_closure_witness :
    (∃ r, get_field_type ["x"] ⟨none, [], [("x", [PyVal.pyInt32 7])]⟩ = .ok r
      ∧ (∀ c, c ∈ (["x"] : List String) → ∀ data v,
          dictLookup (PdFrame.mk none [] [("x", [PyVal.pyInt32 7])]).cols c = some data →
          data.head? = some v → dictLookup r c = mapping (PyVal.type_name v))
      ∧ (¬ DATA_TIME ∈ (["x"] : List String) → dictLookup r DATA_TIME = some (PaType.int64)))
    ∧ get_field_type ["y"] ⟨none, [], [("y", [PyVal.pyOther ("frozenset")])]⟩
        = .error (.typeError mapping_keys) :=
  ⟨(get_field_type_closure.2.2 ["x"] ⟨none, [], [("x", [PyVal.pyInt32 7])]⟩).1 (by
      intro c hc
      simp at hc
      subst hc
      exact ⟨[PyVal.pyInt32 7], PyVal.pyInt32 7, by decide, by decide, by decide⟩),
   (get_field_type_closure.2.2 ["y"] ⟨none, [], [("y", [PyVal.pyOther ("frozenset")])]⟩).2
     (by
      intro c hc
      simp at hc
      subst hc
      exact ⟨[PyVal.pyOther ("frozenset")], PyVal.pyOther ("frozenset"), by decide, by decide⟩)
     ⟨"y", by decide, [PyVal.pyOther ("frozenset")], PyVal.pyOther ("frozenset"),
        by decide, by decide, by decide⟩⟩

/-- Witness for C4: one group-by tag and one overlapping extra tag; on the
emitted batch the extra value wins. -/
theorem pandas_to_arrow_tag_merge_witness :
    dictLookup (Batch.mk [(DATA_TIME, PaType.int64), ("x", PaType.int64)] [("a", "2")]).metadata
        ("a")
      = (dictLookup (apply_add_tags ⟨[("a", "1")], [], [], none⟩ [("a", "2")]).extra_tag_kv
          ("a")).or
          (dictLookup [("a", "1")] ("a")) :=
  (pandas_to_arrow_tag_merge [("a", "1")] [("a", "2")] [("a", "2")]
      ⟨none, [0], [("x", [PyVal.pyInt64 5])]⟩
      ⟨[(DATA_TIME, PaType.int64), ("x", PaType.int64)], [("a", "2")]⟩
      ⟨[(DATA_TIME, PaType.int64), ("x", PaType.int64)], [("a", "2")]⟩
      (by decide) (List.Perm.refl _) rfl rfl).1 ("a")

/-- C3 (amended): during ingest, after the time column becomes the index,
each remaining column is renamed to the identifier the registry returns for
the composite key (task_id, tag tuple, column name), where the tag tuple is
the tag mapping items in dict insertion order (not sorted, see the
counterexample); column order and column data are preserved, only the
names change. -/
theorem arrow_to_pandas_rename (batchCols : List (String × List PyVal))
    (tags : List (String × String)) (task_id : String) (meta : RegKey → String)
    (pf : PdFrame) (h : arrow_to_pandas batchCols tags task_id meta = .ok pf) :
    pf.cols.map Prod.fst
        = (batchCols.filter (fun p => decide (p.1 ≠ DATA_TIME))).map
            (fun p => meta (task_id, tags, p.1))
    ∧ pf.cols.map Prod.snd
        = (batchCols.filter (fun p => decide (p.1 ≠ DATA_TIME))).map Prod.snd := by
  rw [arrow_to_pandas] at h
  rcases hl : dictLookup batchCols DATA_TIME with _ | timeData
  · rw [hl] at h
    simp at h
  · rw [hl] at h
    rcases hmm : timeData.mapM time_to_seconds with e | index
    · simp only [hmm] at h
      simp at h
    · simp only [hmm] at h
      simp only [Except.ok.injEq] at h
      rw [← h]
      have hlen1 : (metadata_to_field_ids task_id tags
            ((batchCols.filter (fun p => decide (p.1 ≠ DATA_TIME))).map Prod.fst) meta).length
          = ((batchCols.filter (fun p => decide (p.1 ≠ DATA_TIME))).map Prod.snd).length := by
        simp [metadata_to_field_ids]
      constructor
      · show (List.zip (metadata_to_field_ids task_id tags
            ((batchCols.filter (fun p => decide (p.1 ≠ DATA_TIME))).map Prod.fst) meta)
            ((batchCols.filter (fun p => decide (p.1 ≠ DATA_TIME))).map Prod.snd)).map Prod.fst
          = (batchCols.filter (fun p => decide (p.1 ≠ DATA_TIME))).map
              (fun p => meta (task_id, tags, p.1))
        rw [List.map_fst_zip _ _ (le_of_eq hlen1)]
        simp [metadata_to_field_ids, List.map_map]
      · show (List.zip (metadata_to_field_ids task_id tags
            ((batchCols.filter (fun p => decide (p.1 ≠ DATA_TIME))).map Prod.fst) meta)
            ((batchCols.filter (fun p => decide (p.1 ≠ DATA_TIME))).map Prod.snd)).map Prod.snd
          = (batchCols.filter (fun p => decide (p.1 ≠ DATA_TIME))).map Prod.snd
        rw [List.map_snd_zip _ _ (le_of_eq hlen1.symm)]

/-- Witness for C3: a two-column batch whose non-time column is renamed to
the registry identifier; the time column has left the column list. -/
theorem arrow_to_pandas_rename_witness :
    (PdFrame.mk (some DATA_TIME) [0] [("id", [PyVal.pyInt64 1])]).cols.map Prod.fst
      = ([(DATA_TIME, [PyVal.pyInt64 5]), ("x", [PyVal.pyInt64 1])].filter
          (fun p => decide (p.1 ≠ DATA_TIME))).map
          (fun p => (fun _ : RegKey => ("id" : String)) (("t"), [], p.1)) :=
  (arrow_to_pandas_rename [(DATA_TIME, [PyVal.pyInt64 5]), ("x", [PyVal.pyInt64 1])] []
      ("t") (fun _ : RegKey => ("id" : String))
      (PdFrame.mk (some DATA_TIME) [0] [("id", [PyVal.pyInt64 1])]) rfl).1

/-- C3 counterexample: the composite registry key carries the tag pairs in
dict insertion order, not sorted: a registry that recognizes the sorted
tuple returns a different identifier than the code computes, and two
permutations of the same tag mapping rename the same column differently,
which a sorted tuple would forbid. -/
theorem metadata_to_field_ids_not_sorted :
    (metadata_to_field_ids ("t") [("b", "2"), ("a", "1")] ["c"]
        (fun rk => if rk.2.1 = [("a", "1"), ("b", "2")] then "s" else "u"))
      ≠ (metadata_to_field_ids_spec_sorted ("t") [("b", "2"), ("a", "1")] ["c"]
        (fun rk => if rk.2.1 = [("a", "1"), ("b", "2")] then "s" else "u"))
    ∧ (metadata_to_field_ids ("t") [("b", "2"), ("a", "1")] ["c"]
        (fun rk => if rk.2.1 = [("a", "1"), ("b", "2")] then "s" else "u"))
      ≠ (metadata_to_field_ids ("t") [("a", "1"), ("b", "2")] ["c"]
        (fun rk => if rk.2.1 = [("a", "1"), ("b", "2")] then "s" else "u")) :=
  ⟨by decide, by decide⟩
